import Mathlib

/-!
Shallow embedding of the go-tron/rate-limiter core (src/rateLimiter.go).

The limiter's mutable receiver state, the external Counter Store (counters
with expiries plus persistent sets), the Store's fault behaviour and the
Publisher's output are bundled into one explicit `RateLimiter` state record;
every Go method becomes a Lean function from that state to a result paired
with the successor state.

Store failures are modelled with a fault schedule: each Store call consumes
the head of `faults`; `some tag` makes that call fail with the opaque error
`GoError.store tag` and leave the store data untouched, `none` (or an
exhausted schedule) lets it succeed. This lets a theorem speak about an
arbitrary failure of any individual Store round trip.
-/

/-- baseError.New values from the source: an error code and a message. -/
structure BaseError where
  code : String
  message : String
deriving DecidableEq, Repr

/-- Go `error` values crossing this API: either one of the package's
baseError values (or a configured replacement), or an opaque failure
returned by a Store call, identified by its fault tag. -/
inductive GoError where
  | base : BaseError → GoError
  | store : Nat → GoError
deriving DecidableEq, Repr

/-- ErrorBlock = baseError.New("4300", "forbidden"). -/
def ErrorBlock : GoError := GoError.base ⟨"4300", "forbidden"⟩

/-- ErrorWarning = baseError.New("4301", "too many requests"). -/
def ErrorWarning : GoError := GoError.base ⟨"4301", "too many requests"⟩

/-- ErrorWhiteListExists = baseError.New("4303", "whiteList exists"). -/
def ErrorWhiteListExists : GoError := GoError.base ⟨"4303", "whiteList exists"⟩

/-- ErrorBlackListExists = baseError.New("4304", "blackList exists"). -/
def ErrorBlackListExists : GoError := GoError.base ⟨"4304", "blackList exists"⟩

/-- The limiter state: configuration fields and the two local list caches
from the Go `RateLimiter` struct, together with the modelled external
collaborators — the Store's counters (with expiries) and sets, the fault
schedule for Store calls, and the list of messages handed to the Publisher. -/
structure RateLimiter where
  Name : String
  Duration : Int
  WarningTimes : Int
  BlockTimes : Int
  BlockDuration : Int
  WarningError : GoError
  BlockError : GoError
  hasPub : Bool
  whiteList : List String
  blackList : List String
  whiteListKey : String
  blackListKey : String
  counters : String → Int
  expiries : String → Option Int
  sets : String → List String
  faults : List (Option Nat)
  published : List (String × String)

/-- Consume the next cell of the fault schedule, done by every Store call. -/
def takeFault (s : RateLimiter) : Option Nat × RateLimiter :=
  match s.faults with
  | [] => (none, s)
  | f :: rest => (f, { s with faults := rest })

/-- Store.FrequencyLimit — the Counter Store Contract's atomic
increment-with-expiry: create the counter at `key` with TTL `dur` when it is
absent, increment it, and return the post-increment count. The source passes
a `threshold` argument of 0, which the contract leaves unused here. -/
def FrequencyLimit (s : RateLimiter) (key : String) (_threshold : Int)
    (dur : Int) : Except Nat Int × RateLimiter :=
  match takeFault s with
  | (some tag, s₁) => (Except.error tag, s₁)
  | (none, s₁) =>
    (Except.ok (s₁.counters key + 1),
     { s₁ with
       counters := fun k => if k = key then s₁.counters key + 1 else s₁.counters k,
       expiries := fun k =>
         if k = key then (if s₁.counters key = 0 then some dur else s₁.expiries key)
         else s₁.expiries k })

/-- Store.Expire: set the expiry of `key` to `dur`. -/
def Expire (s : RateLimiter) (key : String) (dur : Int) :
    Option Nat × RateLimiter :=
  match takeFault s with
  | (some tag, s₁) => (some tag, s₁)
  | (none, s₁) =>
    (none, { s₁ with
      expiries := fun k => if k = key then some dur else s₁.expiries k })

/-- Store.Del: delete the key — its counter is gone (reads as 0 afterwards)
and its expiry with it. -/
def Del (s : RateLimiter) (key : String) : Option Nat × RateLimiter :=
  match takeFault s with
  | (some tag, s₁) => (some tag, s₁)
  | (none, s₁) =>
    (none, { s₁ with
      counters := fun k => if k = key then 0 else s₁.counters k,
      expiries := fun k => if k = key then none else s₁.expiries k })

/-- Store.SAdd: add `member` to the set at `key` (a set: no duplicate). -/
def SAdd (s : RateLimiter) (key member : String) : Option Nat × RateLimiter :=
  match takeFault s with
  | (some tag, s₁) => (some tag, s₁)
  | (none, s₁) =>
    (none, { s₁ with
      sets := fun k =>
        if k = key then
          (if (s₁.sets key).contains member then s₁.sets key
           else s₁.sets key ++ [member])
        else s₁.sets k })

/-- Store.SRem: remove `member` from the set at `key`. -/
def SRem (s : RateLimiter) (key member : String) : Option Nat × RateLimiter :=
  match takeFault s with
  | (some tag, s₁) => (some tag, s₁)
  | (none, s₁) =>
    (none, { s₁ with
      sets := fun k =>
        if k = key then (s₁.sets key).filter (fun m => m ≠ member)
        else s₁.sets k })

/-- Store.SMembers: list the members of the set at `key`. -/
def SMembers (s : RateLimiter) (key : String) :
    Except Nat (List String) × RateLimiter :=
  match takeFault s with
  | (some tag, s₁) => (Except.error tag, s₁)
  | (none, s₁) => (Except.ok (s₁.sets key), s₁)

/-- rl.Pub(channel, message): the Publisher records the message; its error is
discarded by every caller in the source. -/
def doPublish (s : RateLimiter) (channel message : String) : RateLimiter :=
  { s with published := s.published ++ [(channel, message)] }

/-- funk.ContainsString / funk.Contains on a []string: membership test. -/
def containsString (l : List String) (v : String) : Bool :=
  l.contains v

/-- funk.IndexOfString: index of the first occurrence of `v`, -1 if absent. -/
def indexOfString (l : List String) (v : String) : Int :=
  match l.indexOf? v with
  | some i => (i : Int)
  | none => -1

/-- The slice splice `append(l[:idx], l[idx+1:]...)` guarded by `idx != -1`
in the Remove operations: drop the first occurrence of `v` when present. -/
def removeIdx (l : List String) (v : String) : List String :=
  match l.indexOf? v with
  | some i => l.eraseIdx i
  | none => l

/-- Go's strings.Split restricted to the separator "-", on character lists. -/
def splitCharsOnDash : List Char → List (List Char)
  | [] => [[]]
  | c :: rest =>
    if c = '-' then [] :: splitCharsOnDash rest
    else
      match splitCharsOnDash rest with
      | [] => [[c]]
      | seg :: segs => (c :: seg) :: segs

/-- strings.Split(message, "-"): split around every dash. -/
def goSplitDash (message : String) : List String :=
  (splitCharsOnDash message.data).map (fun cs => ⟨cs⟩)

/-- RateLimiter.AddWhiteList(id, pub). -/
def AddWhiteList (s : RateLimiter) (id : String) (pub : Bool) :
    Option GoError × RateLimiter :=
  match SAdd s s.whiteListKey id with
  | (some tag, s₁) => (some (GoError.store tag), s₁)
  | (none, s₁) =>
    if indexOfString s₁.whiteList id ≠ -1 then (some ErrorWhiteListExists, s₁)
    else
      let s₂ := { s₁ with whiteList := s₁.whiteList ++ [id] }
      let s₃ := if pub && s₂.hasPub then
          doPublish s₂ s₂.Name ("addWhiteList-" ++ id)
        else s₂
      (none, s₃)

/-- RateLimiter.AddBlackList(id, pub). -/
def AddBlackList (s : RateLimiter) (id : String) (pub : Bool) :
    Option GoError × RateLimiter :=
  match SAdd s s.blackListKey id with
  | (some tag, s₁) => (some (GoError.store tag), s₁)
  | (none, s₁) =>
    if indexOfString s₁.blackList id ≠ -1 then (some ErrorBlackListExists, s₁)
    else
      let s₂ := { s₁ with blackList := s₁.blackList ++ [id] }
      let s₃ := if pub && s₂.hasPub then
          doPublish s₂ s₂.Name ("addBlackList-" ++ id)
        else s₂
      (none, s₃)

/-- RateLimiter.RemoveWhiteList(id, pub). -/
def RemoveWhiteList (s : RateLimiter) (id : String) (pub : Bool) :
    Option GoError × RateLimiter :=
  match SRem s s.whiteListKey id with
  | (some tag, s₁) => (some (GoError.store tag), s₁)
  | (none, s₁) =>
    let s₂ := { s₁ with whiteList := removeIdx s₁.whiteList id }
    let s₃ := if pub && s₂.hasPub then
        doPublish s₂ s₂.Name ("removeWhiteList-" ++ id)
      else s₂
    (none, s₃)

/-- RateLimiter.CheckReset(id): delete the window counter for `id`. -/
def CheckReset (s : RateLimiter) (id : String) : Option GoError × RateLimiter :=
  match Del s (s.Name ++ ":" ++ id) with
  | (some tag, s₁) => (some (GoError.store tag), s₁)
  | (none, s₁) => (none, s₁)

/-- RateLimiter.RemoveBlackList(id, pub): ends by returning CheckReset(id). -/
def RemoveBlackList (s : RateLimiter) (id : String) (pub : Bool) :
    Option GoError × RateLimiter :=
  match SRem s s.blackListKey id with
  | (some tag, s₁) => (some (GoError.store tag), s₁)
  | (none, s₁) =>
    let s₂ := { s₁ with blackList := removeIdx s₁.blackList id }
    let s₃ := if pub && s₂.hasPub then
        doPublish s₂ s₂.Name ("removeBlackList-" ++ id)
      else s₂
    CheckReset s₃ id

/-- RateLimiter.Check(id): whitelist and blacklist overrides, then the
window-counter increment, then block (escalating to a permanent blacklist
entry when BlockDuration = 0, or re-setting the expiry otherwise) before
warning. The errors of the AddBlackList and Expire calls are discarded,
exactly as in the source. -/
def Check (s : RateLimiter) (id : String) :
    (Int × Option GoError) × RateLimiter :=
  if containsString s.whiteList id then ((0, none), s)
  else if containsString s.blackList id then ((0, some s.BlockError), s)
  else
    match FrequencyLimit s (s.Name ++ ":" ++ id) 0 s.Duration with
    | (Except.error tag, s₁) => ((0, some (GoError.store tag)), s₁)
    | (Except.ok times, s₁) =>
      if s₁.BlockTimes > 0 ∧ times ≥ s₁.BlockTimes then
        if s₁.BlockDuration = 0 then
          ((times, some s₁.BlockError), (AddBlackList s₁ id true).2)
        else
          ((times, some s₁.BlockError),
           (Expire s₁ (s₁.Name ++ ":" ++ id) s₁.BlockDuration).2)
      else if s₁.WarningTimes > 0 ∧ times ≥ s₁.WarningTimes then
        ((times, some s₁.WarningError), s₁)
      else ((times, none), s₁)

/-- RateLimiter.Sub(message): split on every dash; exactly two segments
dispatch on the action with publish=false, anything else is a silent no-op. -/
def RateLimiter.Sub (s : RateLimiter) (message : String) :
    Option GoError × RateLimiter :=
  match goSplitDash message with
  | [action, id] =>
    if action = "removeWhiteList" then RemoveWhiteList s id false
    else if action = "removeBlackList" then RemoveBlackList s id false
    else if action = "addWhiteList" then AddWhiteList s id false
    else if action = "addBlackList" then AddBlackList s id false
    else (none, s)
  | _ => (none, s)

/-- The Config struct fields consumed by New (the Store and Pub collaborators
are supplied to `New` as the modelled store data and the `hasPub` flag). -/
structure Config where
  Name : String
  Duration : Int
  WarningTimes : Int
  BlockTimes : Int
  BlockDuration : Int
  WarningError : Option GoError
  BlockError : Option GoError
  WhiteList : List String
  BlackList : List String
  hasPub : Bool

/-- The seeding loop of New: append each remote member not already contained
in the growing local list. -/
def seedList (localList remote : List String) : List String :=
  remote.foldl
    (fun acc val => if containsString acc val then acc else acc ++ [val])
    localList

/-- RateLimiter.New(c): validation (the panics become `none`), default
errors, copy of the configured lists, then seeding each cache from the
Store's set, skipping the remote members when SMembers fails. -/
def New (c : Config) (counters : String → Int) (expiries : String → Option Int)
    (sets : String → List String) (faults : List (Option Nat)) :
    Option RateLimiter :=
  if c.Name = "" ∨ c.Duration = 0 ∨ c.BlockDuration < 0 then none
  else
    let s0 : RateLimiter := {
      Name := c.Name
      Duration := c.Duration
      WarningTimes := c.WarningTimes
      BlockTimes := c.BlockTimes
      BlockDuration := c.BlockDuration
      WarningError := c.WarningError.getD ErrorWarning
      BlockError := c.BlockError.getD ErrorBlock
      hasPub := c.hasPub
      whiteList := c.WhiteList
      blackList := c.BlackList
      whiteListKey := c.Name ++ "-white"
      blackListKey := c.Name ++ "-black"
      counters := counters
      expiries := expiries
      sets := sets
      faults := faults
      published := [] }
    let s1 := match SMembers s0 s0.whiteListKey with
      | (Except.ok remote, t) => { t with whiteList := seedList t.whiteList remote }
      | (Except.error _, t) => t
    let s2 := match SMembers s1 s1.blackListKey with
      | (Except.ok remote, t) => { t with blackList := seedList t.blackList remote }
      | (Except.error _, t) => t
    some s2

/-- A small concrete limiter state, used to instantiate the theorems:
thresholds 3/5 as in the spec's scenario, fresh Store, no pending faults. -/
def baseRL : RateLimiter := {
  Name := "rl"
  Duration := 10
  WarningTimes := 3
  BlockTimes := 5
  BlockDuration := 0
  WarningError := ErrorWarning
  BlockError := ErrorBlock
  hasPub := true
  whiteList := []
  blackList := []
  whiteListKey := "rl-white"
  blackListKey := "rl-black"
  counters := fun _ => 0
  expiries := fun _ => none
  sets := fun _ => []
  faults := []
  published := [] }

/-- The state effect of a successful FrequencyLimit call: the counter at
`key` incremented, the expiry set to `dur` when the counter was absent. -/
def incrState (s : RateLimiter) (key : String) (dur : Int) : RateLimiter :=
  { s with
    counters := fun k => if k = key then s.counters key + 1 else s.counters k,
    expiries := fun k =>
      if k = key then (if s.counters key = 0 then some dur else s.expiries key)
      else s.expiries k }

/-- baseRL with an id on the whitelist that is also blacklisted, and a
second id only on the blacklist. -/
def listedRL : RateLimiter :=
  { baseRL with whiteList := ["w"], blackList := ["w", "b"] }

/-- baseRL one call short of the block threshold, with a timed block
duration and the expiry re-set call poised to fail with tag 7. -/
def expireFailRL : RateLimiter :=
  { baseRL with
    BlockDuration := 30
    counters := fun _ => 4
    faults := [none, some 7] }

/-- baseRL one increment short of the block threshold. -/
def nearBlockRL : RateLimiter := { baseRL with counters := fun _ => 4 }

/-- baseRL whose next Store call fails with tag 3. -/
def freqFailRL : RateLimiter := { baseRL with faults := [some 3] }

/-- baseRL far over the block threshold whose escalation Store call fails. -/
def escalateFailRL : RateLimiter :=
  { baseRL with
    counters := fun _ => 9
    faults := [none, some 9] }

/-- baseRL with a blacklisted id holding a large stale window count. -/
def blackedRL : RateLimiter :=
  { baseRL with blackList := ["b"], counters := fun _ => 100 }

/-- baseRL with a blacklisted id whose set-removal Store call fails. -/
def sremFailRL : RateLimiter :=
  { baseRL with blackList := ["b"], faults := [some 4] }

/-- baseRL with a blacklisted id whose counter-deletion Store call fails. -/
def delFailRL : RateLimiter :=
  { baseRL with blackList := ["b"], faults := [none, some 5] }

/-- A valid Config whose static whitelist holds the same id twice. -/
def dupConfig : Config := {
  Name := "rl"
  Duration := 10
  WarningTimes := 3
  BlockTimes := 5
  BlockDuration := 0
  WarningError := none
  BlockError := none
  WhiteList := ["a", "a"]
  BlackList := []
  hasPub := false }

/-! Helper lemmas about the fault schedule and the list helpers. -/

theorem takeFault_nil {s : RateLimiter} (hf : s.faults = []) :
    takeFault s = (none, s) := by
  unfold takeFault
  rw [hf]

theorem takeFault_cons {s : RateLimiter} {f : Option Nat}
    {rest : List (Option Nat)} (hf : s.faults = f :: rest) :
    takeFault s = (f, { s with faults := rest }) := by
  unfold takeFault
  rw [hf]

theorem containsString_eq_decide (l : List String) (v : String) :
    containsString l v = decide (v ∈ l) :=
  List.elem_eq_mem v l

theorem containsString_false_indexOf? {l : List String} {v : String}
    (h : containsString l v = false) : l.indexOf? v = none := by
  rw [containsString_eq_decide, decide_eq_false_iff_not] at h
  rw [List.indexOf?_eq_none_iff]
  intro x hx
  simp only [beq_iff_eq]
  intro hxv
  exact h (hxv ▸ hx)

theorem removeIdx_eq_erase (l : List String) (v : String) :
    removeIdx l v = l.erase v := by
  induction l with
  | nil => rfl
  | cons a l ih =>
    unfold removeIdx
    rw [List.indexOf?_cons]
    by_cases hav : a = v
    · subst hav
      simp
    · rw [if_neg (by simpa using hav), List.erase_cons_tail (by simpa using hav)]
      cases hidx : l.indexOf? v with
      | some i =>
        simp only [Option.map_some', List.eraseIdx_cons_succ]
        unfold removeIdx at ih
        rw [hidx] at ih
        exact congrArg (List.cons a) ih
      | none =>
        simp only [Option.map_none']
        unfold removeIdx at ih
        rw [hidx] at ih
        exact congrArg (List.cons a) ih

theorem FrequencyLimit_ok (s : RateLimiter) (key : String) (th dur : Int)
    (hf : s.faults = []) :
    FrequencyLimit s key th dur
      = (Except.ok (s.counters key + 1), incrState s key dur) := by
  rw [FrequencyLimit, takeFault_nil hf]
  rfl

theorem FrequencyLimit_err (s : RateLimiter) (key : String) (th dur : Int)
    {tag : Nat} {rest : List (Option Nat)} (hf : s.faults = some tag :: rest) :
    FrequencyLimit s key th dur = (Except.error tag, { s with faults := rest }) := by
  rw [FrequencyLimit, takeFault_cons hf]

theorem FrequencyLimit_ok2 (s : RateLimiter) (key : String) (th dur : Int)
    {r : List (Option Nat)} (hf : s.faults = none :: r) :
    FrequencyLimit s key th dur
      = (Except.ok (s.counters key + 1), incrState { s with faults := r } key dur) := by
  rw [FrequencyLimit, takeFault_cons hf]
  rfl

theorem Check_whitelisted {s : RateLimiter} {id : String}
    (h : containsString s.whiteList id = true) :
    Check s id = ((0, none), s) := by
  simp [Check, h]

theorem Check_blacklisted {s : RateLimiter} {id : String}
    (hw : containsString s.whiteList id = false)
    (hb : containsString s.blackList id = true) :
    Check s id = ((0, some s.BlockError), s) := by
  simp [Check, hw, hb]

theorem AddBlackList_fresh (s : RateLimiter) (id : String) (pub : Bool)
    (hf : s.faults = []) (hbl : containsString s.blackList id = false) :
    (AddBlackList s id pub).1 = none ∧
    (AddBlackList s id pub).2.blackList = s.blackList ++ [id] ∧
    (AddBlackList s id pub).2.whiteList = s.whiteList ∧
    (AddBlackList s id pub).2.BlockError = s.BlockError ∧
    (AddBlackList s id pub).2.faults = [] ∧
    (AddBlackList s id pub).2.counters = s.counters := by
  have hidx : indexOfString s.blackList id = -1 := by
    rw [indexOfString, containsString_false_indexOf? hbl]
  unfold AddBlackList SAdd
  rw [takeFault_nil hf]
  simp only [hidx, doPublish]
  norm_num
  split <;> simp [hf]

/-- C2: for an id in the local whitelist cache, Check returns (0, none) with
the state untouched (so no Store access at all), even when the same id is
also in the blacklist cache; for an id in the local blacklist cache and not
in the whitelist cache, Check returns (0, the block error) with the state
untouched, so no counter is incremented. -/
theorem check_override_paths (s : RateLimiter) (id : String) :
    (containsString s.whiteList id = true → Check s id = ((0, none), s)) ∧
    (containsString s.whiteList id = false → containsString s.blackList id = true →
      Check s id = ((0, some s.BlockError), s)) := by
  constructor
  · intro h
    exact Check_whitelisted h
  · intro hw hb
    exact Check_blacklisted hw hb

/-- Witness for check_override_paths: a state whose whitelist holds "w" (also
blacklisted) and whose blacklist holds "b". -/
theorem check_override_paths_witness :
    Check listedRL "w" = ((0, none), listedRL) ∧
    Check listedRL "b" = ((0, some ErrorBlock), listedRL) :=
  ⟨(check_override_paths listedRL "w").1 (by decide),
   (check_override_paths listedRL "b").2 (by decide) (by decide)⟩

/-- C1: with warning threshold 3 and block threshold 5, an id on neither
local list and a fresh window, five successive Check calls return counts
1..5: calls 1-2 with no error, calls 3-4 with the warning error, call 5
with the block error; and in general the block comparison is evaluated
before the warning comparison, so any count meeting the block threshold is
reported with the block error only. -/
theorem check_window_sequence (s : RateLimiter) (id : String)
    (hwt : s.WarningTimes = 3) (hbt : s.BlockTimes = 5)
    (hwl : containsString s.whiteList id = false)
    (hbl : containsString s.blackList id = false)
    (hcnt : s.counters (s.Name ++ ":" ++ id) = 0)
    (hf : s.faults = []) :
    ((Check s id).1 = (1, none) ∧
     (Check (Check s id).2 id).1 = (2, none) ∧
     (Check (Check (Check s id).2 id).2 id).1 = (3, some s.WarningError) ∧
     (Check (Check (Check (Check s id).2 id).2 id).2 id).1 = (4, some s.WarningError) ∧
     (Check (Check (Check (Check (Check s id).2 id).2 id).2 id).2 id).1
       = (5, some s.BlockError)) ∧
    (∀ t : RateLimiter, ∀ v : String,
      containsString t.whiteList v = false →
      containsString t.blackList v = false →
      t.faults = [] →
      0 < t.BlockTimes →
      t.counters (t.Name ++ ":" ++ v) + 1 ≥ t.BlockTimes →
      (Check t v).1 = (t.counters (t.Name ++ ":" ++ v) + 1, some t.BlockError)) := by
  constructor
  · norm_num [Check, FrequencyLimit, takeFault, hwt, hbt, hwl, hbl, hcnt, hf]
    split <;> rfl
  · intro t v htw htb htf hb0 hge
    simp only [Check, htw, htb, Bool.false_eq_true, if_false]
    rw [FrequencyLimit]
    rw [takeFault_nil htf]
    simp only []
    rw [if_pos ⟨hb0, hge⟩]
    split
    · rfl
    · rfl

/-- Witness for check_window_sequence: the five-call chain on baseRL, and
the block-beats-warning tie-break at count 7 (above both thresholds). -/
theorem check_window_sequence_witness :
    ((Check baseRL "u").1 = (1, none) ∧
     (Check (Check baseRL "u").2 "u").1 = (2, none) ∧
     (Check (Check (Check baseRL "u").2 "u").2 "u").1 = (3, some ErrorWarning) ∧
     (Check (Check (Check (Check baseRL "u").2 "u").2 "u").2 "u").1
       = (4, some ErrorWarning) ∧
     (Check (Check (Check (Check (Check baseRL "u").2 "u").2 "u").2 "u").2 "u").1
       = (5, some ErrorBlock)) ∧
    (Check { baseRL with counters := fun _ => 6 } "u").1 = (7, some ErrorBlock) := by
  refine ⟨(check_window_sequence baseRL "u" rfl rfl rfl rfl rfl rfl).1, ?_⟩
  exact (check_window_sequence baseRL "u" rfl rfl rfl rfl rfl rfl).2
    { baseRL with counters := fun _ => 6 } "u" rfl rfl rfl (by decide) (by decide)

/-- C3: when the block duration is 0 and the incremented count reaches the
block threshold, Check's result state is exactly the state produced by
AddBlackList (publish=true) on the post-increment state, Check returns
(count, block error), the id is in the local blacklist cache afterwards,
and a subsequent Check returns (0, block error) leaving the state untouched
(the blacklist override path, no counter access). -/
theorem check_escalates (s : RateLimiter) (id : String)
    (hwl : containsString s.whiteList id = false)
    (hbl : containsString s.blackList id = false)
    (hf : s.faults = [])
    (hb0 : 0 < s.BlockTimes)
    (hbd : s.BlockDuration = 0)
    (hge : s.counters (s.Name ++ ":" ++ id) + 1 ≥ s.BlockTimes) :
    Check s id
      = ((s.counters (s.Name ++ ":" ++ id) + 1, some s.BlockError),
         (AddBlackList (incrState s (s.Name ++ ":" ++ id) s.Duration) id true).2) ∧
    containsString (Check s id).2.blackList id = true ∧
    Check (Check s id).2 id = ((0, some s.BlockError), (Check s id).2) := by
  have hmain : Check s id
      = ((s.counters (s.Name ++ ":" ++ id) + 1, some s.BlockError),
         (AddBlackList (incrState s (s.Name ++ ":" ++ id) s.Duration) id true).2) := by
    simp only [Check, hwl, hbl, Bool.false_eq_true, if_false]
    rw [FrequencyLimit_ok s (s.Name ++ ":" ++ id) 0 s.Duration hf]
    simp only [incrState]
    rw [if_pos ⟨hb0, hge⟩, if_pos hbd]
  obtain ⟨-, habl, hawl, haerr, -, -⟩ :=
    AddBlackList_fresh (incrState s (s.Name ++ ":" ++ id) s.Duration) id true hf hbl
  refine ⟨hmain, ?_, ?_⟩
  · rw [hmain]
    simp only [habl, containsString_eq_decide]
    simp
  · rw [hmain]
    have hw2 : containsString
        (AddBlackList (incrState s (s.Name ++ ":" ++ id) s.Duration) id true).2.whiteList id
        = false := by
      rw [hawl]
      exact hwl
    have hb2 : containsString
        (AddBlackList (incrState s (s.Name ++ ":" ++ id) s.Duration) id true).2.blackList id
        = true := by
      rw [habl, containsString_eq_decide]
      simp
    rw [Check_blacklisted hw2 hb2, haerr]
    exact rfl

/-- Witness for check_escalates: baseRL at count 4, the fifth call escalates
the id into the blacklist and the next call is blocked by the override. -/
theorem check_escalates_witness :
    Check nearBlockRL "u"
      = ((5, some ErrorBlock),
         (AddBlackList (incrState nearBlockRL ("rl" ++ ":" ++ "u") 10) "u" true).2) ∧
    containsString (Check nearBlockRL "u").2.blackList "u" = true ∧
    Check (Check nearBlockRL "u").2 "u"
      = ((0, some ErrorBlock), (Check nearBlockRL "u").2) := by
  exact check_escalates nearBlockRL "u" rfl rfl rfl (by decide) rfl (by decide)

/-- C4 (amended): on the Check path only a failure of the counter increment
is propagated, unmodified, to the caller; a failure of the expiry re-set or
of the blacklist-escalation Store call is discarded and Check still returns
(count, block error) — in the escalation case the id is then not added to
the local blacklist either. -/
theorem check_store_error_policy (s : RateLimiter) (id : String) (tag : Nat)
    (hwl : containsString s.whiteList id = false)
    (hbl : containsString s.blackList id = false) :
    (∀ rest, s.faults = some tag :: rest →
      Check s id = ((0, some (GoError.store tag)), { s with faults := rest })) ∧
    (∀ rest, s.faults = none :: some tag :: rest →
      0 < s.BlockTimes → s.counters (s.Name ++ ":" ++ id) + 1 ≥ s.BlockTimes →
      ¬ s.BlockDuration = 0 →
      (Check s id).1 = (s.counters (s.Name ++ ":" ++ id) + 1, some s.BlockError) ∧
      (Check s id).2.faults = rest) ∧
    (∀ rest, s.faults = none :: some tag :: rest →
      0 < s.BlockTimes → s.counters (s.Name ++ ":" ++ id) + 1 ≥ s.BlockTimes →
      s.BlockDuration = 0 →
      (Check s id).1 = (s.counters (s.Name ++ ":" ++ id) + 1, some s.BlockError) ∧
      (Check s id).2.blackList = s.blackList) := by
  refine ⟨?_, ?_, ?_⟩
  · intro rest hf
    simp only [Check, hwl, hbl, Bool.false_eq_true, if_false]
    rw [FrequencyLimit_err s (s.Name ++ ":" ++ id) 0 s.Duration hf]
  · intro rest hf hb0 hge hbd
    simp only [Check, hwl, hbl, Bool.false_eq_true, if_false]
    rw [FrequencyLimit_ok2 s (s.Name ++ ":" ++ id) 0 s.Duration hf]
    simp only [incrState]
    rw [if_pos ⟨hb0, hge⟩, if_neg hbd]
    rw [Expire, takeFault_cons rfl]
    exact ⟨rfl, rfl⟩
  · intro rest hf hb0 hge hbd
    simp only [Check, hwl, hbl, Bool.false_eq_true, if_false]
    rw [FrequencyLimit_ok2 s (s.Name ++ ":" ++ id) 0 s.Duration hf]
    simp only [incrState]
    rw [if_pos ⟨hb0, hge⟩, if_pos hbd]
    rw [AddBlackList, SAdd, takeFault_cons rfl]
    exact ⟨rfl, rfl⟩

/-- C4 counterexample: with the block threshold reached, a timed block
duration, and the Expire call failing with the opaque store error tag 7,
that Store failure is consumed (the fault schedule is exhausted) yet Check
returns the block error, not the store error: the failure was swallowed. -/
theorem check_swallows_expire_failure :
    (Check expireFailRL "x").2.faults = [] ∧
    (Check expireFailRL "x").1 = (5, some ErrorBlock) ∧
    ¬ (Check expireFailRL "x").1.2 = some (GoError.store 7) := by
  refine ⟨by decide, by decide, by decide⟩

/-- Witness for check_store_error_policy: a failing increment propagates tag
3; a failing expiry re-set is swallowed (block error returned, schedule
exhausted); a failing escalation is swallowed and the blacklist cache stays
empty. -/
theorem check_store_error_policy_witness :
    Check freqFailRL "x" = ((0, some (GoError.store 3)), { freqFailRL with faults := [] }) ∧
    ((Check expireFailRL "x").1 = (5, some ErrorBlock) ∧
      (Check expireFailRL "x").2.faults = []) ∧
    ((Check escalateFailRL "x").1 = (10, some ErrorBlock) ∧
      (Check escalateFailRL "x").2.blackList = []) := by
  refine ⟨?_, ?_, ?_⟩
  · exact (check_store_error_policy freqFailRL "x" 3 rfl rfl).1 [] rfl
  · exact (check_store_error_policy expireFailRL "x" 7 rfl rfl).2.1 []
      rfl (by decide) (by decide) (by decide)
  · exact (check_store_error_policy escalateFailRL "x" 9 rfl rfl).2.2 []
      rfl (by decide) (by decide) rfl

theorem splitCharsOnDash_ne_nil (l : List Char) : ¬ splitCharsOnDash l = [] := by
  induction l with
  | nil => simp [splitCharsOnDash]
  | cons c rest ih =>
    simp only [splitCharsOnDash]
    split
    · simp
    · split
      · simp
      · simp

theorem splitCharsOnDash_append_dash (xs ys : List Char) :
    (splitCharsOnDash (xs ++ '-' :: ys)).length
      = (splitCharsOnDash xs).length + (splitCharsOnDash ys).length := by
  induction xs with
  | nil =>
    simp [splitCharsOnDash]
    omega
  | cons c xs ih =>
    simp only [List.cons_append, splitCharsOnDash]
    by_cases hc : c = '-'
    · rw [if_pos hc, if_pos hc]
      simp only [List.length_cons]
      have ih2 : (splitCharsOnDash (xs.append ('-' :: ys))).length
          = (splitCharsOnDash xs).length + (splitCharsOnDash ys).length := ih
      omega
    · rw [if_neg hc, if_neg hc]
      rcases h1 : splitCharsOnDash (xs ++ '-' :: ys) with _ | ⟨s1, t1⟩
      · exact absurd h1 (splitCharsOnDash_ne_nil _)
      · rcases h2 : splitCharsOnDash xs with _ | ⟨s2, t2⟩
        · exact absurd h2 (splitCharsOnDash_ne_nil _)
        · have hlen := ih
          rw [h1, h2] at hlen
          simp only [List.length_cons] at hlen ⊢
          omega

theorem splitCharsOnDash_two_le {l : List Char} (h : '-' ∈ l) :
    2 ≤ (splitCharsOnDash l).length := by
  induction l with
  | nil => cases h
  | cons c rest ih =>
    simp only [splitCharsOnDash]
    by_cases hc : c = '-'
    · rw [if_pos hc]
      rcases hr : splitCharsOnDash rest with _ | ⟨s1, t1⟩
      · exact absurd hr (splitCharsOnDash_ne_nil _)
      · simp
    · rw [if_neg hc]
      have hmem : '-' ∈ rest := by
        rcases List.mem_cons.mp h with h1 | h1
        · exact absurd h1.symm hc
        · exact h1
      rcases hr : splitCharsOnDash rest with _ | ⟨s1, t1⟩
      · exact absurd hr (splitCharsOnDash_ne_nil _)
      · have h2 := ih hmem
        rw [hr] at h2
        simpa using h2

theorem Sub_not_two (s : RateLimiter) (m : String)
    (h : ¬ (goSplitDash m).length = 2) : RateLimiter.Sub s m = (none, s) := by
  rw [RateLimiter.Sub]
  rcases hm : goSplitDash m with _ | ⟨a, _ | ⟨b, _ | ⟨c, t⟩⟩⟩
  · rfl
  · rfl
  · exact absurd (by rw [hm]; rfl) h
  · rfl

theorem Sub_dispatch (s : RateLimiter) (m action id : String)
    (hm : goSplitDash m = [action, id]) :
    (action = "addWhiteList" →
      RateLimiter.Sub s m = AddWhiteList s id false) ∧
    (action = "removeWhiteList" →
      RateLimiter.Sub s m = RemoveWhiteList s id false) ∧
    (action = "addBlackList" →
      RateLimiter.Sub s m = AddBlackList s id false) ∧
    (action = "removeBlackList" →
      RateLimiter.Sub s m = RemoveBlackList s id false) ∧
    (¬ action = "addWhiteList" → ¬ action = "removeWhiteList" →
     ¬ action = "addBlackList" → ¬ action = "removeBlackList" →
      RateLimiter.Sub s m = (none, s)) := by
  rw [RateLimiter.Sub, hm]
  refine ⟨?_, ?_, ?_, ?_, ?_⟩
  · intro ha; subst ha; rfl
  · intro ha; subst ha; rfl
  · intro ha; subst ha; rfl
  · intro ha; subst ha; rfl
  · intro h1 h2 h3 h4
    show (if action = "removeWhiteList" then RemoveWhiteList s id false
      else if action = "removeBlackList" then RemoveBlackList s id false
      else if action = "addWhiteList" then AddWhiteList s id false
      else if action = "addBlackList" then AddBlackList s id false
      else (none, s)) = (none, s)
    rw [if_neg h2, if_neg h4, if_neg h1, if_neg h3]

theorem takeFault_published (s : RateLimiter) :
    (takeFault s).2.published = s.published := by
  unfold takeFault
  cases s.faults <;> rfl

theorem AddWhiteList_published_nopub (s : RateLimiter) (id : String) :
    (AddWhiteList s id false).2.published = s.published := by
  have hp := takeFault_published s
  rw [AddWhiteList, SAdd]
  rcases htf : takeFault s with ⟨f, s₁⟩
  rw [htf] at hp
  cases f
  · simp only [Bool.false_and, if_false]
    split
    · exact hp
    · exact hp
  · exact hp

theorem AddBlackList_published_nopub (s : RateLimiter) (id : String) :
    (AddBlackList s id false).2.published = s.published := by
  have hp := takeFault_published s
  rw [AddBlackList, SAdd]
  rcases htf : takeFault s with ⟨f, s₁⟩
  rw [htf] at hp
  cases f
  · simp only [Bool.false_and, if_false]
    split
    · exact hp
    · exact hp
  · exact hp

theorem RemoveWhiteList_published_nopub (s : RateLimiter) (id : String) :
    (RemoveWhiteList s id false).2.published = s.published := by
  have hp := takeFault_published s
  rw [RemoveWhiteList, SRem]
  rcases htf : takeFault s with ⟨f, s₁⟩
  rw [htf] at hp
  cases f
  · simp only [Bool.false_and, if_false]
    exact hp
  · exact hp

theorem CheckReset_published (s : RateLimiter) (id : String) :
    (CheckReset s id).2.published = s.published := by
  have hp := takeFault_published s
  rw [CheckReset, Del]
  rcases htf : takeFault s with ⟨f, s₁⟩
  rw [htf] at hp
  cases f
  · exact hp
  · exact hp

theorem RemoveBlackList_published_nopub (s : RateLimiter) (id : String) :
    (RemoveBlackList s id false).2.published = s.published := by
  have hp := takeFault_published s
  rw [RemoveBlackList, SRem]
  rcases htf : takeFault s with ⟨f, s₁⟩
  rw [htf] at hp
  cases f
  · simp only [Bool.false_and, if_false]
    exact (CheckReset_published _ id).trans hp
  · exact hp

theorem Sub_published (s : RateLimiter) (m : String) :
    (RateLimiter.Sub s m).2.published = s.published := by
  rw [RateLimiter.Sub]
  rcases hm : goSplitDash m with _ | ⟨a, _ | ⟨b, _ | ⟨c, t⟩⟩⟩
  · rfl
  · rfl
  · show (if a = "removeWhiteList" then RemoveWhiteList s b false
      else if a = "removeBlackList" then RemoveBlackList s b false
      else if a = "addWhiteList" then AddWhiteList s b false
      else if a = "addBlackList" then AddBlackList s b false
      else (none, s)).2.published = s.published
    by_cases h1 : a = "removeWhiteList"
    · rw [if_pos h1]
      exact RemoveWhiteList_published_nopub s b
    rw [if_neg h1]
    by_cases h2 : a = "removeBlackList"
    · rw [if_pos h2]
      exact RemoveBlackList_published_nopub s b
    rw [if_neg h2]
    by_cases h3 : a = "addWhiteList"
    · rw [if_pos h3]
      exact AddWhiteList_published_nopub s b
    rw [if_neg h3]
    by_cases h4 : a = "addBlackList"
    · rw [if_pos h4]
      exact AddBlackList_published_nopub s b
    rw [if_neg h4]
  · rfl

/-- C5 (amended): Sub splits the message at every dash; when the split is
exactly [action, id] the matching mutation is dispatched with the full id
(which therefore cannot itself contain a dash), and a message built from an
id containing a dash splits into three or more segments and is silently
ignored, leaving the state untouched. -/
theorem sub_split_behaviour (s : RateLimiter) (message action id : String)
    (hm : goSplitDash message = [action, id]) :
    (action = "addWhiteList" → RateLimiter.Sub s message = AddWhiteList s id false) ∧
    (action = "removeWhiteList" → RateLimiter.Sub s message = RemoveWhiteList s id false) ∧
    (action = "addBlackList" → RateLimiter.Sub s message = AddBlackList s id false) ∧
    (action = "removeBlackList" → RateLimiter.Sub s message = RemoveBlackList s id false) ∧
    (∀ t : RateLimiter, ∀ a i : String, '-' ∈ i.data →
      RateLimiter.Sub t (a ++ "-" ++ i) = (none, t)) := by
  obtain ⟨d1, d2, d3, d4, -⟩ := Sub_dispatch s message action id hm
  refine ⟨d1, d2, d3, d4, ?_⟩
  intro t a i hdash
  apply Sub_not_two
  have hdata : (a ++ "-" ++ i).data = a.data ++ '-' :: i.data := by
    simp [String.data_append]
  rw [goSplitDash, hdata, List.length_map, splitCharsOnDash_append_dash]
  have h1 := splitCharsOnDash_ne_nil a.data
  have h2 := splitCharsOnDash_two_le hdash
  have h3 : 0 < (splitCharsOnDash a.data).length := List.length_pos.mpr h1
  omega

/-- C5 counterexample: "addWhiteList-al-ice" is silently dropped (the
split yields three segments), so the whitelist differs from what the
claimed dispatch of AddWhiteList with id "al-ice" would have produced. -/
theorem sub_dash_in_id_cex :
    RateLimiter.Sub baseRL "addWhiteList-al-ice" = (none, baseRL) ∧
    ¬ (RateLimiter.Sub baseRL "addWhiteList-al-ice").2.whiteList
        = (AddWhiteList baseRL "al-ice" false).2.whiteList :=
  ⟨rfl, by decide⟩

/-- Witness for sub_split_behaviour: a well-formed message dispatches, and a
dash inside the id makes the message a no-op. -/
theorem sub_split_behaviour_witness :
    RateLimiter.Sub baseRL "addWhiteList-alice" = AddWhiteList baseRL "alice" false ∧
    RateLimiter.Sub baseRL ("x" ++ "-" ++ "a-b") = (none, baseRL) := by
  have h := sub_split_behaviour baseRL "addWhiteList-alice" "addWhiteList" "alice" (by decide)
  exact ⟨h.1 rfl, h.2.2.2.2 baseRL "x" "a-b" (by decide)⟩

/-- C8: Sub never touches the Publisher (the published list is invariant for
every message), any message whose split is not exactly two segments is a
silent no-op returning success, an unrecognized two-segment action is a
silent no-op, and each recognized action dispatches the matching mutation
with publish=false. -/
theorem sub_inbound_policy (s : RateLimiter) (m : String) :
    (RateLimiter.Sub s m).2.published = s.published ∧
    (¬ (goSplitDash m).length = 2 → RateLimiter.Sub s m = (none, s)) ∧
    (∀ action id, goSplitDash m = [action, id] →
      ¬ action = "addWhiteList" → ¬ action = "removeWhiteList" →
      ¬ action = "addBlackList" → ¬ action = "removeBlackList" →
      RateLimiter.Sub s m = (none, s)) ∧
    (∀ action id, goSplitDash m = [action, id] →
      (action = "addWhiteList" → RateLimiter.Sub s m = AddWhiteList s id false) ∧
      (action = "removeWhiteList" → RateLimiter.Sub s m = RemoveWhiteList s id false) ∧
      (action = "addBlackList" → RateLimiter.Sub s m = AddBlackList s id false) ∧
      (action = "removeBlackList" → RateLimiter.Sub s m = RemoveBlackList s id false)) := by
  refine ⟨Sub_published s m, Sub_not_two s m, ?_, ?_⟩
  · intro a i hm h1 h2 h3 h4
    exact (Sub_dispatch s m a i hm).2.2.2.2 h1 h2 h3 h4
  · intro a i hm
    obtain ⟨d1, d2, d3, d4, -⟩ := Sub_dispatch s m a i hm
    exact ⟨d1, d2, d3, d4⟩

/-- Witness for sub_inbound_policy on baseRL: a dispatching message leaves
published empty, and malformed or unknown messages are exact no-ops. -/
theorem sub_inbound_policy_witness :
    (RateLimiter.Sub baseRL "addWhiteList-alice").2.published = [] ∧
    RateLimiter.Sub baseRL "bogus" = (none, baseRL) ∧
    RateLimiter.Sub baseRL "unknownAction-bob" = (none, baseRL) ∧
    RateLimiter.Sub baseRL "addWhiteList-alice" = AddWhiteList baseRL "alice" false := by
  refine ⟨(sub_inbound_policy baseRL "addWhiteList-alice").1, ?_, ?_, ?_⟩
  · exact (sub_inbound_policy baseRL "bogus").2.1 (by decide)
  · exact (sub_inbound_policy baseRL "unknownAction-bob").2.2.1 "unknownAction" "bob"
      (by decide) (by decide) (by decide) (by decide) (by decide)
  · exact ((sub_inbound_policy baseRL "addWhiteList-alice").2.2.2 "addWhiteList" "alice"
      (by decide)).1 rfl

theorem indexOfString_ne_neg_one {l : List String} {v : String}
    (h : v ∈ l) : ¬ indexOfString l v = -1 := by
  intro hcon
  rw [indexOfString] at hcon
  cases hidx : l.indexOf? v with
  | some i =>
    rw [hidx] at hcon
    simp at hcon
  | none =>
    rw [List.indexOf?_eq_none_iff] at hidx
    have := hidx v h
    simp at this

theorem AddWhiteList_fresh_proj (s : RateLimiter) (id : String) (pub : Bool)
    {r : List (Option Nat)} (hf : s.faults = none :: r)
    (hw : containsString s.whiteList id = false) :
    (AddWhiteList s id pub).1 = none ∧
    (AddWhiteList s id pub).2.whiteList = s.whiteList ++ [id] ∧
    (AddWhiteList s id pub).2.faults = r := by
  have hidx : indexOfString s.whiteList id = -1 := by
    rw [indexOfString, containsString_false_indexOf? hw]
  rw [AddWhiteList, SAdd, takeFault_cons hf]
  simp only [hidx]
  norm_num
  split <;> simp [doPublish]

theorem SAdd_ok (s : RateLimiter) (key member : String)
    {r : List (Option Nat)} (hf : s.faults = none :: r) :
    SAdd s key member
      = (none,
         { s with
           faults := r,
           sets := fun k =>
             if k = key then
               (if (s.sets key).contains member then s.sets key
                else s.sets key ++ [member])
             else s.sets k }) := by
  rw [SAdd, takeFault_cons hf]

theorem AddWhiteList_exists_proj (s : RateLimiter) (id : String) (pub : Bool)
    {r : List (Option Nat)} (hf : s.faults = none :: r)
    (hw : id ∈ s.whiteList) :
    (AddWhiteList s id pub).1 = some ErrorWhiteListExists ∧
    (AddWhiteList s id pub).2.whiteList = s.whiteList ∧
    (AddWhiteList s id pub).2.faults = r := by
  have hni := indexOfString_ne_neg_one hw
  rw [AddWhiteList]
  simp only [SAdd_ok s s.whiteListKey id hf, ne_eq, hni, not_false_iff, if_true]
  exact ⟨trivial, trivial, trivial⟩

theorem AddWhiteList_storefail (s : RateLimiter) (id : String) (pub : Bool)
    {tag : Nat} {r : List (Option Nat)} (hf : s.faults = some tag :: r) :
    AddWhiteList s id pub = (some (GoError.store tag), { s with faults := r }) := by
  rw [AddWhiteList, SAdd, takeFault_cons hf]

/-- C6: with the id not yet cached, calling AddWhiteList twice leaves the
first call succeeding and the second failing with the whitelist
already-exists error while the cache holds the id exactly once; and the
Store set-add of the second call runs before the local existence check, so
when that Store call fails its error preempts the already-exists error
(the error is advisory, not transactional). -/
theorem addWhiteList_twice (s : RateLimiter) (id : String) (p₁ p₂ : Bool) (tag : Nat)
    (hcount : s.whiteList.count id = 0) :
    ((AddWhiteList { s with faults := [none, none] } id p₁).1 = none ∧
     (AddWhiteList (AddWhiteList { s with faults := [none, none] } id p₁).2 id p₂).1
       = some ErrorWhiteListExists ∧
     (AddWhiteList (AddWhiteList { s with faults := [none, none] } id p₁).2 id p₂).2.whiteList
       = s.whiteList ++ [id] ∧
     (AddWhiteList (AddWhiteList { s with faults := [none, none] } id p₁).2 id
         p₂).2.whiteList.count id = 1) ∧
    ((AddWhiteList (AddWhiteList { s with faults := [none, some tag] } id p₁).2 id p₂).1
       = some (GoError.store tag) ∧
     (AddWhiteList (AddWhiteList { s with faults := [none, some tag] } id p₁).2 id p₂).2.whiteList
       = s.whiteList ++ [id]) := by
  have hnm : id ∉ s.whiteList := by
    intro hmem
    have := List.count_pos_iff.mpr hmem
    omega
  have hw : containsString s.whiteList id = false := by
    rw [containsString_eq_decide, decide_eq_false_iff_not]
    exact hnm
  constructor
  · obtain ⟨e1, w1, f1⟩ :=
      AddWhiteList_fresh_proj { s with faults := [none, none] } id p₁ rfl hw
    obtain ⟨e2, w2, f2⟩ :=
      AddWhiteList_exists_proj (AddWhiteList { s with faults := [none, none] } id p₁).2 id p₂
        (by rw [f1]) (by rw [w1]; simp)
    refine ⟨e1, e2, by rw [w2, w1], ?_⟩
    rw [w2, w1]
    simp [List.count_append, hcount]
  · obtain ⟨e1, w1, f1⟩ :=
      AddWhiteList_fresh_proj { s with faults := [none, some tag] } id p₁ rfl hw
    have h2 := AddWhiteList_storefail
      (AddWhiteList { s with faults := [none, some tag] } id p₁).2 id p₂ (by rw [f1])
    refine ⟨?_, ?_⟩
    · rw [h2]
    · rw [h2]
      exact w1

/-- Witness for addWhiteList_twice on baseRL with id "a" and store tag 11. -/
theorem addWhiteList_twice_witness :
    ((AddWhiteList { baseRL with faults := [none, none] } "a" true).1 = none ∧
     (AddWhiteList (AddWhiteList { baseRL with faults := [none, none] } "a" true).2 "a" true).1
       = some ErrorWhiteListExists ∧
     (AddWhiteList (AddWhiteList { baseRL with faults := [none, none] } "a" true).2 "a"
         true).2.whiteList = ["a"] ∧
     (AddWhiteList (AddWhiteList { baseRL with faults := [none, none] } "a" true).2 "a"
         true).2.whiteList.count "a" = 1) ∧
    ((AddWhiteList (AddWhiteList { baseRL with faults := [none, some 11] } "a" true).2 "a"
         true).1 = some (GoError.store 11) ∧
     (AddWhiteList (AddWhiteList { baseRL with faults := [none, some 11] } "a" true).2 "a"
         true).2.whiteList = ["a"]) :=
  addWhiteList_twice baseRL "a" true true 11 rfl

theorem CheckReset_ok (s : RateLimiter) (id : String) (hf : s.faults = []) :
    CheckReset s id
      = (none,
         { s with
           counters := fun k => if k = s.Name ++ ":" ++ id then 0 else s.counters k,
           expiries := fun k => if k = s.Name ++ ":" ++ id then none else s.expiries k }) := by
  rw [CheckReset, Del, takeFault_nil hf]

theorem CheckReset_fail (s : RateLimiter) (id : String) {tag : Nat}
    {r : List (Option Nat)} (hf : s.faults = some tag :: r) :
    CheckReset s id = (some (GoError.store tag), { s with faults := r }) := by
  rw [CheckReset, Del, takeFault_cons hf]

theorem RemoveBlackList_ok_proj (s : RateLimiter) (id : String) (pub : Bool)
    (hf : s.faults = []) :
    (RemoveBlackList s id pub).1 = none ∧
    (RemoveBlackList s id pub).2.blackList = removeIdx s.blackList id ∧
    (RemoveBlackList s id pub).2.whiteList = s.whiteList ∧
    (RemoveBlackList s id pub).2.counters (s.Name ++ ":" ++ id) = 0 ∧
    (RemoveBlackList s id pub).2.sets s.blackListKey
      = (s.sets s.blackListKey).filter (fun m => m ≠ id) ∧
    (RemoveBlackList s id pub).2.faults = [] ∧
    (RemoveBlackList s id pub).2.WarningTimes = s.WarningTimes ∧
    (RemoveBlackList s id pub).2.BlockTimes = s.BlockTimes ∧
    (RemoveBlackList s id pub).2.Name = s.Name := by
  rw [RemoveBlackList, SRem, takeFault_nil hf]
  simp only []
  rw [hf]
  split <;>
    refine ⟨rfl, rfl, rfl, ?_, ?_, rfl, rfl, rfl, rfl⟩ <;>
    simp [CheckReset, Del, takeFault, doPublish]

theorem Check_fresh_below (t : RateLimiter) (id : String)
    (hwl : containsString t.whiteList id = false)
    (hbl : containsString t.blackList id = false)
    (hf : t.faults = [])
    (hc : t.counters (t.Name ++ ":" ++ id) = 0)
    (hwt : ¬ t.WarningTimes = 1) (hbt : ¬ t.BlockTimes = 1) :
    (Check t id).1 = (1, none) := by
  simp only [Check, hwl, hbl, Bool.false_eq_true, if_false]
  rw [FrequencyLimit_ok t (t.Name ++ ":" ++ id) 0 t.Duration hf]
  simp only [incrState, hc]
  rw [if_neg (fun h => hbt (by omega)), if_neg (fun h => hwt (by omega))]
  norm_num

/-- C7: with a working Store, RemoveBlackList returns no error (also when
the id is absent — removal is idempotent), removes the id's first cached
occurrence and its Store set membership, and deletes the id's window
counter, so an immediate Check starts a fresh window at count 1 below the
thresholds even if the previous count exceeded the block threshold. -/
theorem removeBlackList_resets_window (s : RateLimiter) (id : String) (pub : Bool)
    (hf : s.faults = [])
    (hwl : containsString s.whiteList id = false)
    (hone : s.blackList.count id ≤ 1)
    (hwt : ¬ s.WarningTimes = 1) (hbt : ¬ s.BlockTimes = 1) :
    (RemoveBlackList s id pub).1 = none ∧
    (RemoveBlackList s id pub).2.blackList = removeIdx s.blackList id ∧
    (RemoveBlackList s id pub).2.sets s.blackListKey
      = (s.sets s.blackListKey).filter (fun m => m ≠ id) ∧
    (RemoveBlackList s id pub).2.counters (s.Name ++ ":" ++ id) = 0 ∧
    (Check (RemoveBlackList s id pub).2 id).1 = (1, none) := by
  obtain ⟨e, bl, wl, cnt, st, fl, wt, bt, nm⟩ := RemoveBlackList_ok_proj s id pub hf
  refine ⟨e, bl, st, cnt, ?_⟩
  have hbl2 : containsString (RemoveBlackList s id pub).2.blackList id = false := by
    rw [bl, removeIdx_eq_erase, containsString_eq_decide, decide_eq_false_iff_not]
    intro hmem
    have hcnt := List.count_erase_self id s.blackList
    have hzero : (s.blackList.erase id).count id = 0 := by omega
    exact absurd hmem (List.count_eq_zero.mp hzero)
  apply Check_fresh_below
  · rw [wl]
    exact hwl
  · exact hbl2
  · exact fl
  · rw [nm]
    exact cnt
  · rw [wt]
    exact hwt
  · rw [bt]
    exact hbt

/-- Witness for removeBlackList_resets_window: blackedRL holds "b" with a
stale count of 100; after removal Check returns (1, none). -/
theorem removeBlackList_resets_window_witness :
    (RemoveBlackList blackedRL "b" true).1 = none ∧
    (RemoveBlackList blackedRL "b" true).2.blackList = [] ∧
    (RemoveBlackList blackedRL "b" true).2.counters ("rl" ++ ":" ++ "b") = 0 ∧
    (Check (RemoveBlackList blackedRL "b" true).2 "b").1 = (1, none) := by
  obtain ⟨h1, h2, h3, h4, h5⟩ :=
    removeBlackList_resets_window blackedRL "b" true rfl rfl (by decide)
      (by decide) (by decide)
  exact ⟨h1, h2.trans (by decide), h4, h5⟩

/-- C10: when the Store set-removal at the start of RemoveBlackList fails,
the call returns that store error with no local effect beyond consuming the
fault (cache, sets, counters and published unchanged); when the set-removal
succeeds and the counter deletion fails, the call still returns the store
error although the id has already left the local cache and the Store set
and the sync event has already been emitted when requested — the operation
is not atomic on a counter-deletion failure. -/
theorem removeBlackList_non_atomic (s : RateLimiter) (id : String) (pub : Bool)
    (tag : Nat) :
    (∀ rest, s.faults = some tag :: rest →
      RemoveBlackList s id pub = (some (GoError.store tag), { s with faults := rest })) ∧
    (∀ rest, s.faults = none :: some tag :: rest →
      (RemoveBlackList s id pub).1 = some (GoError.store tag) ∧
      (RemoveBlackList s id pub).2.blackList = removeIdx s.blackList id ∧
      (RemoveBlackList s id pub).2.sets s.blackListKey
        = (s.sets s.blackListKey).filter (fun m => m ≠ id) ∧
      (RemoveBlackList s id pub).2.counters = s.counters ∧
      (pub = true → s.hasPub = true →
        (RemoveBlackList s id pub).2.published
          = s.published ++ [(s.Name, "removeBlackList-" ++ id)])) := by
  constructor
  · intro rest hfc
    rw [RemoveBlackList, SRem, takeFault_cons hfc]
  · intro rest hfc
    rw [RemoveBlackList, SRem, takeFault_cons hfc]
    simp only []
    split
    · refine ⟨?_, ?_, ?_, ?_, ?_⟩ <;>
        simp [CheckReset, Del, takeFault, doPublish]
    · rename_i hcond
      refine ⟨?_, ?_, ?_, ?_, ?_⟩
      · simp [CheckReset, Del, takeFault]
      · simp [CheckReset, Del, takeFault]
      · simp [CheckReset, Del, takeFault]
      · simp [CheckReset, Del, takeFault]
      · intro hp hh
        exact absurd (by simp [hp, hh]) hcond

/-- Witness for removeBlackList_non_atomic: a failing set-removal returns
tag 4 leaving the cache intact, and a failing counter deletion returns tag
5 after the removal and the publish already happened. -/
theorem removeBlackList_non_atomic_witness :
    RemoveBlackList sremFailRL "b" true
      = (some (GoError.store 4), { sremFailRL with faults := [] }) ∧
    ((RemoveBlackList delFailRL "b" true).1 = some (GoError.store 5) ∧
     (RemoveBlackList delFailRL "b" true).2.blackList = [] ∧
     (RemoveBlackList delFailRL "b" true).2.counters = delFailRL.counters ∧
     (RemoveBlackList delFailRL "b" true).2.published
       = [("rl", "removeBlackList-b")]) := by
  refine ⟨(removeBlackList_non_atomic sremFailRL "b" true 4).1 [] rfl, ?_⟩
  obtain ⟨h1, h2, h3, h4, h5⟩ :=
    (removeBlackList_non_atomic delFailRL "b" true 5).2 [] rfl
  exact ⟨h1, h2.trans (by decide), h4, (h5 rfl rfl).trans (by decide)⟩

theorem seedList_nodup (r : List String) :
    ∀ l : List String, l.Nodup → (seedList l r).Nodup := by
  induction r with
  | nil =>
    intro l hl
    exact hl
  | cons v r ih =>
    intro l hl
    rw [seedList, List.foldl_cons]
    by_cases hc : containsString l v = true
    · rw [if_pos hc]
      exact ih l hl
    · rw [if_neg hc]
      refine ih (l ++ [v]) ?_
      have hv : v ∉ l := by
        have hc2 : containsString l v = false := by
          cases hcv : containsString l v
          · rfl
          · exact absurd hcv hc
        rw [containsString_eq_decide, decide_eq_false_iff_not] at hc2
        exact hc2
      simp [List.nodup_append, hl, hv]

/-- C9 counterexample: a configured whitelist ["a", "a"] seeds a local
cache that holds "a" twice — the construction does not de-duplicate the
configured static list itself. -/
theorem new_dup_config_cex :
    Option.map (fun s => s.whiteList)
        (New dupConfig (fun _ => 0) (fun _ => none) (fun _ => []) [])
      = some ["a", "a"] ∧
    Option.map (fun s => s.whiteList.count "a")
        (New dupConfig (fun _ => 0) (fun _ => none) (fun _ => []) [])
      = some 2 :=
  ⟨rfl, rfl⟩

/-- C9 (amended): for a valid configuration, construction seeds each local
cache with the configured static list as given (duplicates within it are
preserved) followed by the Store set's members, each appended only when not
already present in the growing cache; a Store read failure during seeding
leaves the cache at the configured list instead of failing construction;
and when the configured list is duplicate-free the seeded cache is
duplicate-free. -/
theorem new_seeding (c : Config) (counters : String → Int)
    (expiries : String → Option Int) (sets : String → List String)
    (t u : Nat)
    (hn : ¬ c.Name = "") (hd : ¬ c.Duration = 0) (hb : 0 ≤ c.BlockDuration) :
    Option.map (fun s => (s.whiteList, s.blackList)) (New c counters expiries sets [])
      = some (seedList c.WhiteList (sets (c.Name ++ "-white")),
              seedList c.BlackList (sets (c.Name ++ "-black"))) ∧
    Option.map (fun s => (s.whiteList, s.blackList))
        (New c counters expiries sets [some t, some u])
      = some (c.WhiteList, c.BlackList) ∧
    (∀ l r : List String, l.Nodup → (seedList l r).Nodup) := by
  have hcond : ¬ (c.Name = "" ∨ c.Duration = 0 ∨ c.BlockDuration < 0) := by
    push_neg
    exact ⟨hn, hd, by omega⟩
  refine ⟨?_, ?_, fun l r hl => seedList_nodup r l hl⟩
  · rw [New, if_neg hcond]
    rfl
  · rw [New, if_neg hcond]
    rfl

/-- Witness for new_seeding at dupConfig: seeding with a working Store,
seeding with both reads failing, and Nodup preservation on a concrete
duplicate-free list. -/
theorem new_seeding_witness :
    Option.map (fun s => (s.whiteList, s.blackList))
        (New dupConfig (fun _ => 0) (fun _ => none) (fun _ => ["z"]) [])
      = some (seedList ["a", "a"] ["z"], seedList [] ["z"]) ∧
    Option.map (fun s => (s.whiteList, s.blackList))
        (New dupConfig (fun _ => 0) (fun _ => none) (fun _ => ["z"]) [some 1, some 2])
      = some (["a", "a"], []) ∧
    (seedList ["q"] ["q", "z"]).Nodup := by
  have h := new_seeding dupConfig (fun _ => 0) (fun _ => none) (fun _ => ["z"]) 1 2
    (by decide) (by decide) (by decide)
  exact ⟨h.1, h.2.1, h.2.2 ["q"] ["q", "z"] (by decide)⟩
